import Mathlib

/-!
Shallow embedding of `src/nodes/TeamsFileUpload.node.ts` from the
`n8n-nodes-extended-teams` repository.

The node's `execute` method loops over the input items; for each item it
reads three node parameters (`chatId`, `binaryPropertyName`, `message`),
then inside a `try` block resolves the binary payload, issues a POST that
creates the chat message (via `microsoftApiRequest`) and a PUT that uploads
the raw file bytes (via `this.helpers.requestOAuth2`), and pushes a result
record.  Errors are either converted to `{success: false, error}` records
(continue-on-fail mode) or rethrown wrapped in a `NodeApiError`.

The embedding is trace-based: every node-parameter read and every HTTP
request is recorded as an `Event`, and the platform (n8n helpers plus the
HTTP transport) is an explicit `Env` of response functions.
-/

/-- JavaScript/JSON values as they flow through the node.  `jundefined`
models JavaScript `undefined` (absent property), distinct from `null`. -/
inductive JValue where
  | jundefined
  | jnull
  | jbool (b : Bool)
  | jnum (n : Nat)
  | jstr (s : String)
  | jarr (elems : List JValue)
  | jobj (fields : List (String × JValue))
deriving Repr

/-- Property access `v[k]` in JavaScript: on objects, the stored value,
otherwise (or when the key is absent) `undefined`. -/
def JValue.getField : JValue → String → JValue
  | .jobj fields, k =>
    match fields.lookup k with
    | some v => v
    | none => .jundefined
  | _, _ => .jundefined

/-- JavaScript truthiness, used by `if (microsoftError.error?.error)`. -/
def JValue.truthy : JValue → Bool
  | .jundefined => false
  | .jnull => false
  | .jbool b => b
  | .jnum n => n != 0
  | .jstr s => s != ""
  | .jarr _ => true
  | .jobj _ => true

/-- Template-literal stringification (only the cases that can occur in the
node's `Error ${code}: ${message}` interpolation). -/
def JValue.jsToString : JValue → String
  | .jundefined => "undefined"
  | .jnull => "null"
  | .jbool b => if b then "true" else "false"
  | .jnum n => toString n
  | .jstr s => s
  | .jarr _ => ""
  | .jobj _ => "[object Object]"

/-- JavaScript `a || b` on strings: the empty string is falsy. -/
def strOr (a b : String) : String :=
  if a = "" then b else a

/-- JavaScript `a || b` where `a : string | undefined`
(`binaryData.fileName || 'file'`). -/
def optStrOr (a : Option String) (b : String) : String :=
  match a with
  | none => b
  | some s => strOr s b

/-- The n8n `IBinaryData` fields that the node touches: `data` is the
base64-encoded content, `fileName` is optional. -/
structure BinaryData where
  data : String
  fileName : Option String
deriving Repr, DecidableEq

/-- An input workflow item: `binary` is the optional dictionary of named
binary payloads (`items[i].binary`). -/
structure Item where
  binary : Option (List (String × BinaryData))
deriving Repr, DecidableEq

/-- Evaluation of `items[i].binary?.[binaryPropertyName]`: optional
chaining followed by
property lookup. -/
def Item.getBinary (it : Item) (name : String) : Option BinaryData :=
  match it.binary with
  | none => none
  | some m => m.lookup name

/-- JavaScript errors as the node sees them.
`err message payload`: an ordinary error (`new Error(msg)` or an error
thrown by the HTTP helper, whose `.error` property — the parsed response
body — is `payload`).
`nodeApiError inner options`: the n8n `NodeApiError` wrapper built by
`microsoftApiRequest`'s catch block and by `execute`'s rethrow. -/
inductive JsError where
  | err (message : String) (payload : Option JValue)
  | nodeApiError (inner : JsError) (options : List (String × JValue))
deriving Repr

/-- The `.message` property of an error.  For plain errors it is the
constructor argument.  For `NodeApiError` the displayed message is built by
the n8n platform (code not in this repository); modelled from the spec:
the upstream failure is "surfaced with its message/code when available",
so we take the `message` entry of the error options when it is a string. -/
def JsError.message : JsError → String
  | .err m _ => m
  | .nodeApiError _ options =>
    match options.lookup "message" with
    | some (.jstr s) => s
    | _ => ""

/-- Body of an outgoing HTTP request: a JSON value (`json: true` calls) or
the raw file bytes of the PUT. -/
inductive ReqBody where
  | jsonBody (v : JValue)
  | bytes (b : List Nat)
deriving Repr

/-- An HTTP request as handed to `this.helpers.requestOAuth2`.  `uri` is a
JavaScript value because the PUT uses `uploadSession.uploadUrl`, which can
be `undefined` when the POST response lacks that property. -/
structure HttpReq where
  method : String
  uri : JValue
  headers : List (String × JValue)
  qs : List (String × JValue)
  body : ReqBody
  json : Bool
deriving Repr

/-- Observable events of one `execute` run: node-parameter reads and HTTP
requests, in program order. -/
inductive Event where
  | paramRead (name : String) (itemIndex : Nat)
  | httpRequest (req : HttpReq)
deriving Repr

/-- The platform environment: the continue-on-fail flag, the node-parameter
accessor (which may throw), the OAuth2 HTTP helper (indexed by the number
of HTTP requests already issued in the run, so a test environment can make
one specific call fail), and Node's `Buffer.from(-, 'base64')` decoder. -/
structure Env where
  continueOnFail : Bool
  getNodeParameter : String → Nat → Except JsError String
  requestOAuth2 : Nat → HttpReq → Except JsError JValue
  base64Decode : String → List Nat

/-- Semantics of `Object.assign({}, options.headers, headers)`: values of
shared keys
are overridden, new keys are appended. -/
def objectAssign (base extra : List (String × JValue)) :
    List (String × JValue) :=
  (base.map fun kv =>
    match extra.lookup kv.1 with
    | some v => (kv.1, v)
    | none => kv) ++
  extra.filter fun kv => (base.lookup kv.1).isNone

/-- The error options `microsoftApiRequest` attaches when wrapping an HTTP
failure: when `microsoftError.error?.error` is truthy, `message` is the
Graph error message and `description` is "Error code: message". -/
def errorOptionsFor (e : JsError) : List (String × JValue) :=
  match e with
  | .err _ (some payload) =>
    let errorDetails := payload.getField "error"
    if errorDetails.truthy then
      [("message", errorDetails.getField "message"),
       ("description",
        .jstr ("Error " ++ (errorDetails.getField "code").jsToString ++
          ": " ++ (errorDetails.getField "message").jsToString))]
    else []
  | _ => []

/-- The `options` object `microsoftApiRequest` builds: JSON content type,
Graph base URL when no explicit `uri` is given, header merge when extra
headers are given, `json: true`. -/
def apiRequestOptions (method : String) (resource : String) (body : JValue)
    (qs : List (String × JValue)) (uri : Option String)
    (headers : List (String × JValue)) : HttpReq :=
  let baseHeaders : List (String × JValue) :=
    [("Content-Type", .jstr "application/json")]
  { method := method
    uri := .jstr (optStrOr uri ("https://graph.microsoft.com" ++ resource))
    headers := if headers.isEmpty then baseHeaders
               else objectAssign baseHeaders headers
    qs := qs
    body := .jsonBody body
    json := true }

/-- Embedding of `microsoftApiRequest(method, resource, body, qs, uri,
headers)`:
builds the request options, issues the request, and wraps any failure in a
`NodeApiError` with `errorOptionsFor`.  Returns the built request (the
emitted trace event) together with the outcome; `seq` is the number of
HTTP requests issued earlier in the run. -/
def microsoftApiRequest (env : Env) (seq : Nat) (method : String)
    (resource : String) (body : JValue) (qs : List (String × JValue))
    (uri : Option String) (headers : List (String × JValue)) :
    HttpReq × Except JsError JValue :=
  let options := apiRequestOptions method resource body qs uri headers
  (options,
   match env.requestOAuth2 seq options with
   | .ok v => .ok v
   | .error e => .error (.nodeApiError e (errorOptionsFor e)))

/-- The success record pushed for an item:
`{success: true, messageId, fileName, uploadResponse}`. -/
def successJson (messageId : JValue) (fileName : String)
    (uploadResponse : JValue) : JValue :=
  .jobj [("success", .jbool true),
         ("messageId", messageId),
         ("fileName", .jstr fileName),
         ("uploadResponse", uploadResponse)]

/-- The error record pushed in continue-on-fail mode:
`{success: false, error: error.message || 'An error occurred…'}`. -/
def failJson (e : JsError) : JValue :=
  .jobj [("success", .jbool false),
         ("error",
          .jstr (strOr e.message "An error occurred while uploading the file"))]

/-- The message of the `new Error(...)` thrown when the binary payload is
absent. -/
def noBinaryDataMessage : String :=
  "No binary data found. Please make sure to connect a node that outputs files."

/-- The body the node sends with the message-creation POST:
`{body: {content}, attachments: [{contentType: 'reference',
contentUrl: null, name: fileName}]}`. -/
def messagePostBody (content : String) (fileName : String) : JValue :=
  .jobj [("body", .jobj [("content", .jstr content)]),
         ("attachments",
          .jarr [.jobj [("contentType", .jstr "reference"),
                        ("contentUrl", .jnull),
                        ("name", .jstr fileName)]])]

/-- The options of the direct PUT upload: `uploadSession.uploadUrl` as
target, `Content-Length` set to the buffer length, the raw bytes as body,
`json: false`. -/
def putRequest (uploadSession : JValue) (fileBuffer : List Nat) : HttpReq :=
  { method := "PUT"
    uri := uploadSession.getField "uploadUrl"
    headers := [("Content-Length", .jnum fileBuffer.length)]
    qs := []
    body := .bytes fileBuffer
    json := false }

/-- The body of the `try` block for one item, given the three parameter
values already read: resolve the binary payload (throwing the
no-binary-data error when absent), issue the message-creation POST via
`microsoftApiRequest`, and on its success the file PUT; produce the
emitted HTTP-request events and either the success record or the thrown
error.  `seq` is the number of HTTP requests issued earlier in the run. -/
def tryBlock (env : Env) (seq : Nat) (item : Item) (chatId : String)
    (binaryPropertyName : String) (message : String) :
    List Event × Except JsError JValue :=
  match item.getBinary binaryPropertyName with
  | none => ([], .error (.err noBinaryDataMessage none))
  | some binaryData =>
    let fileName := optStrOr binaryData.fileName "file"
    let fileBuffer := env.base64Decode binaryData.data
    let post :=
      microsoftApiRequest env seq "POST"
        ("/v1.0/chats/" ++ chatId ++ "/messages")
        (messagePostBody (strOr message fileName) fileName) [] none []
    match post.2 with
    | .error e => ([.httpRequest post.1], .error e)
    | .ok uploadSession =>
      let putReq := putRequest uploadSession fileBuffer
      match env.requestOAuth2 (seq + 1) putReq with
      | .error e =>
        ([.httpRequest post.1, .httpRequest putReq], .error e)
      | .ok uploadResponse =>
        ([.httpRequest post.1, .httpRequest putReq],
         .ok (successJson (uploadSession.getField "id") fileName
           uploadResponse))

/-- The `for` loop of `execute`.  `i` is the item index, `seq` the number
of HTTP requests issued so far, `acc` the `returnData` array, `trace` the
events so far.  Parameter reads happen outside the `try`, so their errors
always propagate; `try`-block errors become `failJson` records when
`continueOnFail()` holds and are otherwise rethrown wrapped in a
`NodeApiError` without options. -/
def executeLoop (env : Env) :
    List Item → Nat → Nat → List JValue → List Event →
    List Event × Except JsError (List JValue)
  | [], _, _, acc, trace => (trace, .ok acc)
  | item :: rest, i, seq, acc, trace =>
    let trace := trace ++ [.paramRead "chatId" i]
    match env.getNodeParameter "chatId" i with
    | .error e => (trace, .error e)
    | .ok chatId =>
      let trace := trace ++ [.paramRead "binaryPropertyName" i]
      match env.getNodeParameter "binaryPropertyName" i with
      | .error e => (trace, .error e)
      | .ok binaryPropertyName =>
        let trace := trace ++ [.paramRead "message" i]
        match env.getNodeParameter "message" i with
        | .error e => (trace, .error e)
        | .ok message =>
          let r := tryBlock env seq item chatId binaryPropertyName message
          let trace := trace ++ r.1
          match r.2 with
          | .ok record =>
            executeLoop env rest (i + 1) (seq + r.1.length)
              (acc ++ [record]) trace
          | .error e =>
            if env.continueOnFail then
              executeLoop env rest (i + 1) (seq + r.1.length)
                (acc ++ [failJson e]) trace
            else
              (trace, .error (.nodeApiError e []))

/-- Embedding of `TeamsFileUpload.execute`: run the loop from the start
and return
`[returnData]` on completion, together with the event trace. -/
def execute (env : Env) (items : List Item) :
    List Event × Except JsError (List (List JValue)) :=
  match executeLoop env items 0 0 [] [] with
  | (trace, .ok returnData) => (trace, .ok [returnData])
  | (trace, .error e) => (trace, .error e)

/-- The three per-item node-parameter reads in program order,
short-circuiting at the first failure (the reads before the `try` block). -/
def paramsOf (env : Env) (i : Nat) :
    Except JsError (String × String × String) :=
  match env.getNodeParameter "chatId" i with
  | .error e => .error e
  | .ok chatId =>
    match env.getNodeParameter "binaryPropertyName" i with
    | .error e => .error e
    | .ok binaryPropertyName =>
      match env.getNodeParameter "message" i with
      | .error e => .error e
      | .ok message => .ok (chatId, binaryPropertyName, message)

/-- Derived view of a run: the outcome (parameter reads plus `try` block)
of each item, with the HTTP-request counter threaded exactly as in
`executeLoop`.  A parameter-read failure appears as that error. -/
def itemResults (env : Env) :
    List Item → Nat → Nat → List (Except JsError JValue)
  | [], _, _ => []
  | item :: rest, i, seq =>
    match paramsOf env i with
    | .error e => .error e :: itemResults env rest (i + 1) seq
    | .ok (chatId, binaryPropertyName, message) =>
      let r := tryBlock env seq item chatId binaryPropertyName message
      r.2 :: itemResults env rest (i + 1) (seq + r.1.length)

/-- The record `execute` pushes for an item outcome when the loop reaches
the push: the success record itself, or `failJson` in continue-on-fail
mode. -/
def toRecord : Except JsError JValue → JValue
  | .ok r => r
  | .error e => failJson e

/-- Derived view of a completed run: one event block per item, the three
parameter reads followed by the HTTP requests of the item's `try` block.
(The parameter-read-failure branch is arbitrary; a run in which it is hit
does not complete and no theorem below uses the view there.) -/
def itemBlocks (env : Env) : List Item → Nat → Nat → List (List Event)
  | [], _, _ => []
  | item :: rest, i, seq =>
    match paramsOf env i with
    | .error _ => []
    | .ok (chatId, binaryPropertyName, message) =>
      let r := tryBlock env seq item chatId binaryPropertyName message
      ([.paramRead "chatId" i, .paramRead "binaryPropertyName" i,
        .paramRead "message" i] ++ r.1) ::
        itemBlocks env rest (i + 1) (seq + r.1.length)

/-- The message-creation POST request `tryBlock` sends for a given chat id,
resolved content, and resolved file name (the result of feeding the node's
arguments through `apiRequestOptions`). -/
def chatMessagePost (chatId content fileName : String) : HttpReq :=
  apiRequestOptions "POST" ("/v1.0/chats/" ++ chatId ++ "/messages")
    (messagePostBody content fileName) [] none []

/-- Test binary payload with a file name (base64 "ABC"). -/
def bdW : BinaryData := { data := "QUJD", fileName := some "report.pdf" }

/-- Test binary payload without a file name. -/
def bdAnonW : BinaryData := { data := "QQ==", fileName := none }

/-- Test item carrying `bdW` under the property name "data". -/
def itemOkW : Item := { binary := some [("data", bdW)] }

/-- Test item carrying `bdAnonW` under the property name "data". -/
def itemAnonW : Item := { binary := some [("data", bdAnonW)] }

/-- Test item with no binary dictionary at all. -/
def itemNoBinW : Item := { binary := none }

/-- Test message-creation response with an id and an upload URL. -/
def sessionW : JValue :=
  .jobj [("id", .jstr "msg-1"), ("uploadUrl", .jstr "https://up.example/1")]

/-- Test parameter table: chat "chat-1", binary property "data", empty
message, for every item index. -/
def paramW : String → Nat → Except JsError String := fun name _ =>
  .ok (if name = "binaryPropertyName" then "data"
       else if name = "chatId" then "chat-1" else "")

/-- Test platform on which every request succeeds (continue-on-fail on). -/
def envOkW : Env :=
  { continueOnFail := true
    getNodeParameter := paramW
    requestOAuth2 := fun _ req =>
      if req.method = "PUT" then .ok (.jstr "uploaded") else .ok sessionW
    base64Decode := fun s => [s.length] }

/-- Variant of `envOkW` with continue-on-fail off. -/
def envAbortW : Env := { envOkW with continueOnFail := false }

/-- The error the test transport throws on PUT in `envPutFailW`. -/
def putFailW : JsError := .err "upload failed" none

/-- Test platform on which the message POST succeeds but the file PUT
fails. -/
def envPutFailW : Env :=
  { envOkW with requestOAuth2 := fun _ req =>
      if req.method = "PUT" then .error putFailW else .ok sessionW }

/-- The error the parameter accessor throws for item 1 in
`envParamFailW`. -/
def paramFailW : JsError := .err "param missing" none

/-- Test platform whose parameter accessor throws for item index 1. -/
def envParamFailW : Env :=
  { envOkW with getNodeParameter := fun name i =>
      if i = 1 then .error paramFailW else paramW name i }

/-- Test platform whose decoded file buffer is larger than 4GB. -/
def envBigW : Env :=
  { envOkW with base64Decode := fun _ => List.replicate (2 ^ 32 + 1) 0 }


theorem tryBlock_events_http (env : Env) (seq : Nat) (item : Item)
    (c b m : String) :
    ∀ ev ∈ (tryBlock env seq item c b m).1, ∃ req, ev = Event.httpRequest req := by
  unfold tryBlock
  split
  · simp
  · dsimp only
    split <;> [simp; skip]
    split <;> simp

theorem paramsOf_ok_of (env : Env) (i : Nat) (c b m : String)
    (h1 : env.getNodeParameter "chatId" i = .ok c)
    (h2 : env.getNodeParameter "binaryPropertyName" i = .ok b)
    (h3 : env.getNodeParameter "message" i = .ok m) :
    paramsOf env i = .ok (c, b, m) := by
  simp [paramsOf, h1, h2, h3]

theorem executeLoop_ok (env : Env) :
    ∀ (items : List Item) (i seq : Nat) (acc : List JValue)
      (trace t : List Event) (out : List JValue),
      executeLoop env items i seq acc trace = (t, .ok out) →
      t = trace ++ (itemBlocks env items i seq).flatten ∧
      out = acc ++ (itemResults env items i seq).map toRecord := by
  intro items
  induction items with
  | nil =>
    intro i seq acc trace t out h
    simp [executeLoop] at h
    simp [itemBlocks, itemResults, h.1, h.2]
  | cons item rest ih =>
    intro i seq acc trace t out h
    simp only [executeLoop] at h
    cases h1 : env.getNodeParameter "chatId" i with
    | error e => rw [h1] at h; simp at h
    | ok chatId =>
      rw [h1] at h
      try dsimp only at h
      cases h2 : env.getNodeParameter "binaryPropertyName" i with
      | error e => rw [h2] at h; simp at h
      | ok bpn =>
        rw [h2] at h
        try dsimp only at h
        cases h3 : env.getNodeParameter "message" i with
        | error e => rw [h3] at h; simp at h
        | ok msg =>
          rw [h3] at h
          try dsimp only at h
          have hp := paramsOf_ok_of env i chatId bpn msg h1 h2 h3
          cases h4 : (tryBlock env seq item chatId bpn msg).2 with
          | ok record =>
            rw [h4] at h
            try dsimp only at h
            obtain ⟨ht, ho⟩ := ih (i + 1)
              (seq + (tryBlock env seq item chatId bpn msg).1.length)
              (acc ++ [record])
              (trace ++ [.paramRead "chatId" i] ++ [.paramRead "binaryPropertyName" i]
                ++ [.paramRead "message" i] ++ (tryBlock env seq item chatId bpn msg).1)
              t out h
            constructor
            · rw [ht]
              simp [itemBlocks, hp, List.append_assoc]
            · rw [ho]
              simp [itemResults, hp, h4, toRecord]
          | error e =>
            rw [h4] at h
            try dsimp only at h
            cases hc : env.continueOnFail with
            | false => rw [hc] at h; simp at h
            | true =>
              rw [hc] at h
              rw [if_pos rfl] at h
              obtain ⟨ht, ho⟩ := ih (i + 1)
                (seq + (tryBlock env seq item chatId bpn msg).1.length)
                (acc ++ [failJson e])
                (trace ++ [.paramRead "chatId" i] ++ [.paramRead "binaryPropertyName" i]
                  ++ [.paramRead "message" i] ++ (tryBlock env seq item chatId bpn msg).1)
                t out h
              constructor
              · rw [ht]
                simp [itemBlocks, hp, List.append_assoc]
              · rw [ho]
                simp [itemResults, hp, h4, toRecord]

theorem paramsOf_ok_inv (env : Env) (i : Nat) (c b m : String)
    (h : paramsOf env i = .ok (c, b, m)) :
    env.getNodeParameter "chatId" i = .ok c ∧
    env.getNodeParameter "binaryPropertyName" i = .ok b ∧
    env.getNodeParameter "message" i = .ok m := by
  unfold paramsOf at h
  split at h
  · simp at h
  · split at h
    · simp at h
    · split at h
      · simp at h
      · simp only [Except.ok.injEq, Prod.mk.injEq] at h
        obtain ⟨hc1, hb1, hm1⟩ := h
        subst hc1; subst hb1; subst hm1
        exact ⟨by assumption, by assumption, by assumption⟩

theorem executeLoop_continue (env : Env) (hcf : env.continueOnFail = true) :
    ∀ (items : List Item) (i seq : Nat) (acc : List JValue)
      (trace : List Event),
      (∀ j, j < items.length → (paramsOf env (i + j)).isOk = true) →
      executeLoop env items i seq acc trace =
        (trace ++ (itemBlocks env items i seq).flatten,
         .ok (acc ++ (itemResults env items i seq).map toRecord)) := by
  intro items
  induction items with
  | nil =>
    intro i seq acc trace _
    simp [executeLoop, itemBlocks, itemResults]
  | cons item rest ih =>
    intro i seq acc trace hp
    have h0 := hp 0 (by simp)
    rw [Nat.add_zero] at h0
    cases hpi : paramsOf env i with
    | error e => rw [hpi] at h0; simp [Except.isOk, Except.toBool] at h0
    | ok v =>
      obtain ⟨c, b, m⟩ := v
      obtain ⟨h1, h2, h3⟩ := paramsOf_ok_inv env i c b m hpi
      have hrest : ∀ j, j < rest.length →
          (paramsOf env (i + 1 + j)).isOk = true := by
        intro j hj
        have := hp (j + 1) (by simpa using Nat.succ_lt_succ hj)
        rwa [show i + (j + 1) = i + 1 + j by omega] at this
      simp only [executeLoop]
      rw [h1]
      dsimp only
      rw [h2]
      dsimp only
      rw [h3]
      dsimp only
      cases h4 : (tryBlock env seq item c b m).2 with
      | ok record =>
        dsimp only
        rw [ih (i + 1) (seq + (tryBlock env seq item c b m).1.length)
          (acc ++ [record]) _ hrest]
        simp [itemBlocks, itemResults, hpi, h4, toRecord, List.append_assoc]
      | error e =>
        dsimp only
        rw [hcf]
        rw [if_pos rfl]
        rw [ih (i + 1) (seq + (tryBlock env seq item c b m).1.length)
          (acc ++ [failJson e]) _ hrest]
        simp [itemBlocks, itemResults, hpi, h4, toRecord, List.append_assoc]

theorem itemResults_length (env : Env) :
    ∀ (items : List Item) (i seq : Nat),
      (itemResults env items i seq).length = items.length := by
  intro items
  induction items with
  | nil => intro i seq; rfl
  | cons item rest ih =>
    intro i seq
    simp only [itemResults]
    cases h : paramsOf env i with
    | error e => simp [ih]
    | ok v => obtain ⟨c, b, m⟩ := v; simp [ih]

theorem executeLoop_param_abort (env : Env) (hcf : env.continueOnFail = true) :
    ∀ (items : List Item) (k i seq : Nat) (acc : List JValue)
      (trace : List Event) (e : JsError),
      k < items.length →
      (∀ j, j < k → (paramsOf env (i + j)).isOk = true) →
      paramsOf env (i + k) = .error e →
      executeLoop env items i seq acc trace =
        executeLoop env (items.take (k + 1)) i seq acc trace ∧
      (executeLoop env items i seq acc trace).2 = .error e := by
  intro items
  induction items with
  | nil => intro k i seq acc trace e hk; simp at hk
  | cons item rest ih =>
    intro k i seq acc trace e hk hprev hpk
    cases k with
    | zero =>
      rw [Nat.add_zero] at hpk
      simp only [List.take, executeLoop]
      cases h1 : env.getNodeParameter "chatId" i with
      | error e1 =>
        have : paramsOf env i = .error e1 := by simp [paramsOf, h1]
        rw [this] at hpk
        injection hpk with he
        subst he
        exact ⟨rfl, rfl⟩
      | ok c =>
        dsimp only
        cases h2 : env.getNodeParameter "binaryPropertyName" i with
        | error e2 =>
          have : paramsOf env i = .error e2 := by simp [paramsOf, h1, h2]
          rw [this] at hpk
          injection hpk with he
          subst he
          exact ⟨rfl, rfl⟩
        | ok b =>
          dsimp only
          cases h3 : env.getNodeParameter "message" i with
          | error e3 =>
            have : paramsOf env i = .error e3 := by simp [paramsOf, h1, h2, h3]
            rw [this] at hpk
            injection hpk with he
            subst he
            exact ⟨rfl, rfl⟩
          | ok m =>
            have : paramsOf env i = .ok (c, b, m) := by simp [paramsOf, h1, h2, h3]
            rw [this] at hpk
            exact absurd hpk (by simp)
    | succ k' =>
      have h0 := hprev 0 (Nat.succ_pos k')
      rw [Nat.add_zero] at h0
      cases hpi : paramsOf env i with
      | error e0 => rw [hpi] at h0; simp [Except.isOk, Except.toBool] at h0
      | ok v =>
        obtain ⟨c, b, m⟩ := v
        obtain ⟨h1, h2, h3⟩ := paramsOf_ok_inv env i c b m hpi
        have hprev' : ∀ j, j < k' → (paramsOf env (i + 1 + j)).isOk = true := by
          intro j hj
          have := hprev (j + 1) (Nat.succ_lt_succ hj)
          rwa [show i + (j + 1) = i + 1 + j by omega] at this
        have hpk' : paramsOf env (i + 1 + k') = .error e := by
          rwa [show i + 1 + k' = i + (k' + 1) by omega]
        have hk' : k' < rest.length := Nat.lt_of_succ_lt_succ hk
        simp only [List.take, executeLoop]
        rw [h1]
        dsimp only
        rw [h2]
        dsimp only
        rw [h3]
        dsimp only
        cases h4 : (tryBlock env seq item c b m).2 with
        | ok record =>
          dsimp only
          exact ih k' (i + 1) (seq + (tryBlock env seq item c b m).1.length)
            (acc ++ [record]) _ e hk' hprev' hpk'
        | error e' =>
          dsimp only
          rw [hcf, if_pos rfl]
          exact ih k' (i + 1) (seq + (tryBlock env seq item c b m).1.length)
            (acc ++ [failJson e']) _ e hk' hprev' hpk'

theorem executeLoop_fail_abort (env : Env) (hcf : env.continueOnFail = false) :
    ∀ (items : List Item) (k i seq : Nat) (acc : List JValue)
      (trace : List Event) (e : JsError),
      (∀ j, j < k → ∃ r, (itemResults env items i seq)[j]? = some (.ok r)) →
      (paramsOf env (i + k)).isOk = true →
      (itemResults env items i seq)[k]? = some (.error e) →
      executeLoop env items i seq acc trace =
        executeLoop env (items.take (k + 1)) i seq acc trace ∧
      (executeLoop env items i seq acc trace).2 =
        .error (.nodeApiError e []) := by
  intro items
  induction items with
  | nil => intro k i seq acc trace e _ _ hk; simp [itemResults] at hk
  | cons item rest ih =>
    intro k i seq acc trace e hprev hpk hfail
    cases k with
    | zero =>
      rw [Nat.add_zero] at hpk
      cases hpi : paramsOf env i with
      | error e0 => rw [hpi] at hpk; simp [Except.isOk, Except.toBool] at hpk
      | ok v =>
        obtain ⟨c, b, m⟩ := v
        obtain ⟨h1, h2, h3⟩ := paramsOf_ok_inv env i c b m hpi
        simp only [itemResults, hpi] at hfail
        simp only [List.getElem?_cons_zero, Option.some.injEq] at hfail
        simp only [List.take, executeLoop]
        rw [h1]
        dsimp only
        rw [h2]
        dsimp only
        rw [h3]
        dsimp only
        rw [hfail]
        dsimp only
        rw [hcf]
        simp
    | succ k' =>
      obtain ⟨r0, h0⟩ := hprev 0 (Nat.succ_pos k')
      cases hpi : paramsOf env i with
      | error e0 =>
        simp [itemResults, hpi] at h0
      | ok v =>
        obtain ⟨c, b, m⟩ := v
        obtain ⟨h1, h2, h3⟩ := paramsOf_ok_inv env i c b m hpi
        simp only [itemResults, hpi, List.getElem?_cons_zero,
          Option.some.injEq] at h0
        have hprev' : ∀ j, j < k' →
            ∃ r, (itemResults env rest (i + 1)
              (seq + (tryBlock env seq item c b m).1.length))[j]? =
                some (.ok r) := by
          intro j hj
          obtain ⟨r, hr⟩ := hprev (j + 1) (Nat.succ_lt_succ hj)
          refine ⟨r, ?_⟩
          simpa [itemResults, hpi] using hr
        have hpk' : (paramsOf env (i + 1 + k')).isOk = true := by
          rwa [show i + 1 + k' = i + (k' + 1) by omega]
        have hfail' : (itemResults env rest (i + 1)
            (seq + (tryBlock env seq item c b m).1.length))[k']? =
              some (.error e) := by
          simpa [itemResults, hpi] using hfail
        simp only [List.take, executeLoop]
        rw [h1]
        dsimp only
        rw [h2]
        dsimp only
        rw [h3]
        dsimp only
        rw [h0]
        dsimp only
        exact ih k' (i + 1) (seq + (tryBlock env seq item c b m).1.length)
          (acc ++ [r0]) _ e hprev' hpk' hfail'

theorem microsoftApiRequest_ok_iff (env : Env) (seq : Nat)
    (method resource : String) (body : JValue) (qs : List (String × JValue))
    (uri : Option String) (headers : List (String × JValue)) (v : JValue) :
    (microsoftApiRequest env seq method resource body qs uri headers).2 =
        .ok v ↔
      env.requestOAuth2 seq
        (apiRequestOptions method resource body qs uri headers) = .ok v := by
  unfold microsoftApiRequest
  dsimp only
  cases h : env.requestOAuth2 seq
      (apiRequestOptions method resource body qs uri headers) <;> simp [h]

theorem microsoftApiRequest_error_iff (env : Env) (seq : Nat)
    (method resource : String) (body : JValue) (qs : List (String × JValue))
    (uri : Option String) (headers : List (String × JValue)) (e : JsError) :
    (microsoftApiRequest env seq method resource body qs uri headers).2 =
        .error e ↔
      ∃ e', env.requestOAuth2 seq
          (apiRequestOptions method resource body qs uri headers) =
            .error e' ∧
        e = .nodeApiError e' (errorOptionsFor e') := by
  unfold microsoftApiRequest
  dsimp only
  cases h : env.requestOAuth2 seq
      (apiRequestOptions method resource body qs uri headers) <;>
    simp [h, eq_comm]

theorem tryBlock_snd_ok_inv (env : Env) (seq : Nat) (item : Item)
    (c b m : String) (r : JValue)
    (h : (tryBlock env seq item c b m).2 = .ok r) :
    ∃ us ur bd, item.getBinary b = some bd ∧
      env.requestOAuth2 seq
        (chatMessagePost c (strOr m (optStrOr bd.fileName "file"))
          (optStrOr bd.fileName "file")) = .ok us ∧
      env.requestOAuth2 (seq + 1)
        (putRequest us (env.base64Decode bd.data)) = .ok ur ∧
      r = successJson (us.getField "id") (optStrOr bd.fileName "file") ur := by
  unfold tryBlock at h
  split at h
  · simp at h
  · dsimp only at h
    rename_i bd hbd
    split at h
    · simp at h
    · rename_i us hus
      split at h
      · simp at h
      · rename_i ur hur
        simp only at h
        refine ⟨us, ur, bd, hbd, ?_, hur, Except.ok.inj h.symm⟩
        exact (microsoftApiRequest_ok_iff env seq _ _ _ _ _ _ us).mp hus

theorem itemResults_ok_inv (env : Env) :
    ∀ (items : List Item) (i seq j : Nat) (r : JValue),
      (itemResults env items i seq)[j]? = some (.ok r) →
      ∃ us fn ur,
        (∃ seqq req, req.method = "POST" ∧
          env.requestOAuth2 seqq req = .ok us) ∧
        r = successJson (us.getField "id") fn ur := by
  intro items
  induction items with
  | nil => intro i seq j r h; simp [itemResults] at h
  | cons item rest ih =>
    intro i seq j r h
    cases hpi : paramsOf env i with
    | error e =>
      simp only [itemResults, hpi] at h
      cases j with
      | zero => simp at h
      | succ j' =>
        rw [List.getElem?_cons_succ] at h
        exact ih (i + 1) seq j' r h
    | ok v =>
      obtain ⟨c, b, m⟩ := v
      simp only [itemResults, hpi] at h
      cases j with
      | zero =>
        rw [List.getElem?_cons_zero] at h
        obtain ⟨us, ur, bd, _, hpost, _, hr⟩ :=
          tryBlock_snd_ok_inv env seq item c b m r (Option.some.inj h)
        exact ⟨us, optStrOr bd.fileName "file", ur,
          ⟨seq, _, rfl, hpost⟩, hr⟩
      | succ j' =>
        rw [List.getElem?_cons_succ] at h
        exact ih (i + 1) (seq + (tryBlock env seq item c b m).1.length) j' r h

theorem executeLoop_ok_params (env : Env) :
    ∀ (items : List Item) (i seq : Nat) (acc : List JValue)
      (trace t : List Event) (out : List JValue),
      executeLoop env items i seq acc trace = (t, .ok out) →
      ∀ j, j < items.length → (paramsOf env (i + j)).isOk = true := by
  intro items
  induction items with
  | nil => intro i seq acc trace t out _ j hj; simp at hj
  | cons item rest ih =>
    intro i seq acc trace t out h j hj
    simp only [executeLoop] at h
    cases h1 : env.getNodeParameter "chatId" i with
    | error e => rw [h1] at h; simp at h
    | ok chatId =>
      rw [h1] at h
      dsimp only at h
      cases h2 : env.getNodeParameter "binaryPropertyName" i with
      | error e => rw [h2] at h; simp at h
      | ok bpn =>
        rw [h2] at h
        dsimp only at h
        cases h3 : env.getNodeParameter "message" i with
        | error e => rw [h3] at h; simp at h
        | ok msg =>
          rw [h3] at h
          dsimp only at h
          have hp := paramsOf_ok_of env i chatId bpn msg h1 h2 h3
          cases j with
          | zero => rw [Nat.add_zero, hp]; rfl
          | succ j' =>
            have hj' : j' < rest.length := Nat.lt_of_succ_lt_succ hj
            rw [show i + (j' + 1) = (i + 1) + j' by omega]
            cases h4 : (tryBlock env seq item chatId bpn msg).2 with
            | ok record =>
              rw [h4] at h
              dsimp only at h
              exact ih (i + 1) _ _ _ t out h j' hj'
            | error e =>
              rw [h4] at h
              dsimp only at h
              cases hc : env.continueOnFail with
              | false => rw [hc] at h; simp at h
              | true =>
                rw [hc, if_pos rfl] at h
                exact ih (i + 1) _ _ _ t out h j' hj'

theorem itemBlocks_length_of_params (env : Env) :
    ∀ (items : List Item) (i seq : Nat),
      (∀ j, j < items.length → (paramsOf env (i + j)).isOk = true) →
      (itemBlocks env items i seq).length = items.length := by
  intro items
  induction items with
  | nil => intro i seq _; rfl
  | cons item rest ih =>
    intro i seq hp
    have h0 := hp 0 (Nat.succ_pos _)
    rw [Nat.add_zero] at h0
    cases hpi : paramsOf env i with
    | error e => rw [hpi] at h0; simp [Except.isOk, Except.toBool] at h0
    | ok v =>
      obtain ⟨c, b, m⟩ := v
      simp only [itemBlocks, hpi, List.length_cons]
      rw [ih (i + 1) (seq + (tryBlock env seq item c b m).1.length)]
      intro j hj
      have := hp (j + 1) (Nat.succ_lt_succ hj)
      rwa [show i + (j + 1) = i + 1 + j by omega] at this

theorem itemBlocks_struct (env : Env) :
    ∀ (items : List Item) (i seq k : Nat),
      k < items.length →
      (∀ j, j < items.length → (paramsOf env (i + j)).isOk = true) →
      ∃ https, (itemBlocks env items i seq)[k]? =
          some ([.paramRead "chatId" (i + k),
                 .paramRead "binaryPropertyName" (i + k),
                 .paramRead "message" (i + k)] ++ https) ∧
        ∀ ev ∈ https, ∃ req, ev = Event.httpRequest req := by
  intro items
  induction items with
  | nil => intro i seq k hk; simp at hk
  | cons item rest ih =>
    intro i seq k hk hp
    have h0 := hp 0 (Nat.succ_pos _)
    rw [Nat.add_zero] at h0
    cases hpi : paramsOf env i with
    | error e => rw [hpi] at h0; simp [Except.isOk, Except.toBool] at h0
    | ok v =>
      obtain ⟨c, b, m⟩ := v
      cases k with
      | zero =>
        refine ⟨(tryBlock env seq item c b m).1, ?_, ?_⟩
        · simp [itemBlocks, hpi]
        · exact tryBlock_events_http env seq item c b m
      | succ k' =>
        have hk' : k' < rest.length := Nat.lt_of_succ_lt_succ hk
        have hp' : ∀ j, j < rest.length →
            (paramsOf env (i + 1 + j)).isOk = true := by
          intro j hj
          have := hp (j + 1) (Nat.succ_lt_succ hj)
          rwa [show i + (j + 1) = i + 1 + j by omega] at this
        obtain ⟨https, hget, hhttp⟩ :=
          ih (i + 1) (seq + (tryBlock env seq item c b m).1.length) k' hk' hp'
        refine ⟨https, ?_, hhttp⟩
        simp only [itemBlocks, hpi]
        rw [List.getElem?_cons_succ]
        rw [show i + (k' + 1) = i + 1 + k' by omega]
        exact hget

theorem tryBlock_first_event (env : Env) (seq : Nat) (item : Item)
    (chatId binaryPropertyName message : String) (bd : BinaryData)
    (hbd : item.getBinary binaryPropertyName = some bd) :
    ∃ rest res, tryBlock env seq item chatId binaryPropertyName message =
      (.httpRequest (chatMessagePost chatId
        (strOr message (optStrOr bd.fileName "file"))
        (optStrOr bd.fileName "file")) :: rest, res) := by
  unfold tryBlock
  rw [hbd]
  dsimp only
  cases hpost : (microsoftApiRequest env seq "POST"
      ("/v1.0/chats/" ++ chatId ++ "/messages")
      (messagePostBody (strOr message (optStrOr bd.fileName "file"))
        (optStrOr bd.fileName "file")) [] none []).2 with
  | error e => exact ⟨[], .error e, rfl⟩
  | ok us =>
    dsimp only
    cases hput : env.requestOAuth2 (seq + 1)
        (putRequest us (env.base64Decode bd.data)) with
    | error e =>
      exact ⟨[.httpRequest (putRequest us (env.base64Decode bd.data))],
        .error e, rfl⟩
    | ok ur =>
      exact ⟨[.httpRequest (putRequest us (env.base64Decode bd.data))],
        .ok (successJson (us.getField "id") (optStrOr bd.fileName "file") ur),
        rfl⟩

/-- C2: for an input item whose binary payload under the configured binary
property name is absent, the try block raises the no-binary-data error for
that item, with an empty HTTP-event list — the error is thrown before any
HTTP request is issued for the item. -/
theorem c2_missing_binary_errors_before_http (env : Env) (seq : Nat)
    (item : Item) (chatId binaryPropertyName message : String)
    (h : item.getBinary binaryPropertyName = none) :
    tryBlock env seq item chatId binaryPropertyName message =
      ([], .error (.err noBinaryDataMessage none)) := by
  unfold tryBlock
  rw [h]

/-- Witness for C2: concrete item with no binary dictionary. -/
theorem c2_missing_binary_errors_before_http_witness :
    itemNoBinW.getBinary "data" = none ∧
    tryBlock envOkW 0 itemNoBinW "chat-1" "data" "" =
      ([], .error (.err noBinaryDataMessage none)) :=
  ⟨rfl, c2_missing_binary_errors_before_http envOkW 0 itemNoBinW
    "chat-1" "data" "" rfl⟩

/-- C10: with binary data present, the message-creation POST carries
`message || fileName` as its body content, where the resolved file name is
`binaryData.fileName || 'file'`: an empty message parameter makes the
content the resolved file name (the literal "file" when the payload has no
fileName), and a non-empty message is used as the content. -/
theorem c10_empty_message_uses_filename (env : Env) (seq : Nat)
    (item : Item) (chatId binaryPropertyName message : String)
    (bd : BinaryData)
    (hbd : item.getBinary binaryPropertyName = some bd) :
    (∃ rest res, tryBlock env seq item chatId binaryPropertyName message =
      (.httpRequest (chatMessagePost chatId
        (strOr message (optStrOr bd.fileName "file"))
        (optStrOr bd.fileName "file")) :: rest, res)) ∧
    (message = "" → strOr message (optStrOr bd.fileName "file") =
      optStrOr bd.fileName "file") ∧
    (message = "" → bd.fileName = none →
      strOr message (optStrOr bd.fileName "file") = "file") ∧
    (message ≠ "" → strOr message (optStrOr bd.fileName "file") = message) := by
  refine ⟨tryBlock_first_event env seq item chatId binaryPropertyName
    message bd hbd, ?_, ?_, ?_⟩
  · intro hm; simp [strOr, hm]
  · intro hm hf; simp [strOr, optStrOr, hm, hf]
  · intro hm; simp [strOr, hm]

/-- Witness for C10: empty message and a payload without a file name. -/
theorem c10_empty_message_uses_filename_witness :
    (∃ rest res, tryBlock envOkW 0 itemAnonW "chat-1" "data" "" =
      (.httpRequest (chatMessagePost "chat-1"
        (strOr "" (optStrOr bdAnonW.fileName "file"))
        (optStrOr bdAnonW.fileName "file")) :: rest, res)) ∧
    ("" = "" → strOr "" (optStrOr bdAnonW.fileName "file") =
      optStrOr bdAnonW.fileName "file") ∧
    ("" = "" → bdAnonW.fileName = none →
      strOr "" (optStrOr bdAnonW.fileName "file") = "file") ∧
    ("" ≠ "" → strOr "" (optStrOr bdAnonW.fileName "file") = "") :=
  c10_empty_message_uses_filename envOkW 0 itemAnonW "chat-1" "data" ""
    bdAnonW rfl

/-- C7: with binary data present, no file-size check is performed:
whatever the length of the decoded buffer, the upload sequence starts with
the message-creation POST, and any error the try block raises comes from
the HTTP transport (the POST, wrapped as a `NodeApiError`, or the PUT) —
never from a size limit. -/
theorem c7_no_size_limit (env : Env) (seq : Nat) (item : Item)
    (chatId binaryPropertyName message : String) (bd : BinaryData) (n : Nat)
    (hbd : item.getBinary binaryPropertyName = some bd)
    (hsize : (env.base64Decode bd.data).length = n) :
    (∃ rest res, tryBlock env seq item chatId binaryPropertyName message =
      (.httpRequest (chatMessagePost chatId
        (strOr message (optStrOr bd.fileName "file"))
        (optStrOr bd.fileName "file")) :: rest, res)) ∧
    (∀ e, (tryBlock env seq item chatId binaryPropertyName message).2 =
        .error e →
      (∃ e', env.requestOAuth2 seq (chatMessagePost chatId
          (strOr message (optStrOr bd.fileName "file"))
          (optStrOr bd.fileName "file")) = .error e' ∧
        e = .nodeApiError e' (errorOptionsFor e')) ∨
      (∃ us, env.requestOAuth2 seq (chatMessagePost chatId
          (strOr message (optStrOr bd.fileName "file"))
          (optStrOr bd.fileName "file")) = .ok us ∧
        env.requestOAuth2 (seq + 1)
          (putRequest us (env.base64Decode bd.data)) = .error e)) := by
  refine ⟨tryBlock_first_event env seq item chatId binaryPropertyName
    message bd hbd, ?_⟩
  intro e he
  unfold tryBlock at he
  rw [hbd] at he
  dsimp only at he
  cases hpost : (microsoftApiRequest env seq "POST"
      ("/v1.0/chats/" ++ chatId ++ "/messages")
      (messagePostBody (strOr message (optStrOr bd.fileName "file"))
        (optStrOr bd.fileName "file")) [] none []).2 with
  | error e0 =>
    rw [hpost] at he
    dsimp only at he
    obtain ⟨e', hreq, heq⟩ :=
      (microsoftApiRequest_error_iff env seq _ _ _ _ _ _ e0).mp hpost
    left
    refine ⟨e', hreq, ?_⟩
    rw [← Except.error.inj he, heq]
  | ok us =>
    rw [hpost] at he
    dsimp only at he
    cases hput : env.requestOAuth2 (seq + 1)
        (putRequest us (env.base64Decode bd.data)) with
    | error e1 =>
      rw [hput] at he
      dsimp only at he
      right
      refine ⟨us, (microsoftApiRequest_ok_iff env seq _ _ _ _ _ _ us).mp
        hpost, ?_⟩
      rw [← Except.error.inj he]
      exact hput
    | ok ur =>
      rw [hput] at he
      dsimp only at he
      exact absurd he (by simp)

/-- Witness for C7: a decoded buffer of 2^32 + 1 bytes, above the
documented 4GB limit, still starts the upload sequence. -/
theorem c7_no_size_limit_witness :
    (∃ rest res, tryBlock envBigW 0 itemOkW "chat-1" "data" "" =
      (.httpRequest (chatMessagePost "chat-1"
        (strOr "" (optStrOr bdW.fileName "file"))
        (optStrOr bdW.fileName "file")) :: rest, res)) ∧
    (∀ e, (tryBlock envBigW 0 itemOkW "chat-1" "data" "").2 = .error e →
      (∃ e', envBigW.requestOAuth2 0 (chatMessagePost "chat-1"
          (strOr "" (optStrOr bdW.fileName "file"))
          (optStrOr bdW.fileName "file")) = .error e' ∧
        e = .nodeApiError e' (errorOptionsFor e')) ∨
      (∃ us, envBigW.requestOAuth2 0 (chatMessagePost "chat-1"
          (strOr "" (optStrOr bdW.fileName "file"))
          (optStrOr bdW.fileName "file")) = .ok us ∧
        envBigW.requestOAuth2 (0 + 1)
          (putRequest us (envBigW.base64Decode bdW.data)) = .error e)) :=
  c7_no_size_limit envBigW 0 itemOkW "chat-1" "data" "" bdW (2 ^ 32 + 1)
    rfl
    (by rw [show envBigW.base64Decode bdW.data =
        List.replicate (2 ^ 32 + 1) 0 from rfl, List.length_replicate])

/-- C6: when the message-creation POST succeeds and the file PUT fails,
the try block's HTTP trace for the item is exactly the POST followed by
the failed PUT — no compensating request (such as a message delete) is
issued, so the created message is left in place. -/
theorem c6_put_failure_issues_no_rollback (env : Env) (seq : Nat)
    (item : Item) (chatId binaryPropertyName message : String)
    (bd : BinaryData) (us : JValue) (e : JsError)
    (hbd : item.getBinary binaryPropertyName = some bd)
    (hpost : env.requestOAuth2 seq (chatMessagePost chatId
      (strOr message (optStrOr bd.fileName "file"))
      (optStrOr bd.fileName "file")) = .ok us)
    (hput : env.requestOAuth2 (seq + 1)
      (putRequest us (env.base64Decode bd.data)) = .error e) :
    tryBlock env seq item chatId binaryPropertyName message =
      ([.httpRequest (chatMessagePost chatId
          (strOr message (optStrOr bd.fileName "file"))
          (optStrOr bd.fileName "file")),
        .httpRequest (putRequest us (env.base64Decode bd.data))],
       .error e) ∧
    (chatMessagePost chatId
      (strOr message (optStrOr bd.fileName "file"))
      (optStrOr bd.fileName "file")).method = "POST" ∧
    (putRequest us (env.base64Decode bd.data)).method = "PUT" := by
  have hpost2 : (microsoftApiRequest env seq "POST"
      ("/v1.0/chats/" ++ chatId ++ "/messages")
      (messagePostBody (strOr message (optStrOr bd.fileName "file"))
        (optStrOr bd.fileName "file")) [] none []).2 = .ok us :=
    (microsoftApiRequest_ok_iff env seq _ _ _ _ _ _ us).mpr hpost
  refine ⟨?_, rfl, rfl⟩
  unfold tryBlock
  rw [hbd]
  dsimp only
  rw [hpost2]
  dsimp only
  rw [hput]
  rfl

/-- Witness for C6: a transport whose PUT fails after a successful POST. -/
theorem c6_put_failure_issues_no_rollback_witness :
    tryBlock envPutFailW 0 itemOkW "chat-1" "data" "" =
      ([.httpRequest (chatMessagePost "chat-1"
          (strOr "" (optStrOr bdW.fileName "file"))
          (optStrOr bdW.fileName "file")),
        .httpRequest (putRequest sessionW
          (envPutFailW.base64Decode bdW.data))],
       .error putFailW) ∧
    (chatMessagePost "chat-1"
      (strOr "" (optStrOr bdW.fileName "file"))
      (optStrOr bdW.fileName "file")).method = "POST" ∧
    (putRequest sessionW (envPutFailW.base64Decode bdW.data)).method =
      "PUT" :=
  c6_put_failure_issues_no_rollback envPutFailW 0 itemOkW "chat-1" "data" ""
    bdW sessionW putFailW rfl rfl rfl

theorem execute_ok_inv (env : Env) (items : List Item) (t : List Event)
    (out : List (List JValue)) (h : execute env items = (t, .ok out)) :
    ∃ records, out = [records] ∧
      executeLoop env items 0 0 [] [] = (t, .ok records) := by
  unfold execute at h
  rcases hl : executeLoop env items 0 0 [] [] with ⟨t', res⟩
  rw [hl] at h
  cases res with
  | ok rd =>
    dsimp only at h
    obtain ⟨ht, hout⟩ := Prod.mk.inj h
    exact ⟨rd, (Except.ok.inj hout).symm, by rw [ht]⟩
  | error e => simp at h

/-- C4: whenever `execute` completes, it returns a single output branch
holding exactly one result record per input item, and the record at
position `j` is the record derived from input item `j` (the `j`-th entry
of the per-item outcome list of the run). -/
theorem c4_one_record_per_item_in_order (env : Env) (items : List Item)
    (t : List Event) (out : List (List JValue))
    (h : execute env items = (t, .ok out)) :
    ∃ records : List JValue, out = [records] ∧
      records.length = items.length ∧
      ∀ j : Nat, records[j]? =
        ((itemResults env items 0 0)[j]?).map toRecord := by
  obtain ⟨records, hout, hloop⟩ := execute_ok_inv env items t out h
  obtain ⟨ht, ho⟩ := executeLoop_ok env items 0 0 [] [] t records hloop
  refine ⟨records, hout, ?_, ?_⟩
  · rw [ho]; simp [itemResults_length]
  · intro j; rw [ho]; simp

/-- Witness for C4: a completed one-item run. -/
theorem c4_one_record_per_item_in_order_witness :
    ∃ records : List JValue,
      [[successJson (.jstr "msg-1") "report.pdf" (.jstr "uploaded")]] =
        [records] ∧
      records.length = ([itemOkW] : List Item).length ∧
      ∀ j : Nat, records[j]? =
        ((itemResults envOkW [itemOkW] 0 0)[j]?).map toRecord :=
  c4_one_record_per_item_in_order envOkW [itemOkW]
    (execute envOkW [itemOkW]).1
    [[successJson (.jstr "msg-1") "report.pdf" (.jstr "uploaded")]] rfl

/-- C5: every record a completed run emits has exactly one of the two
shapes `{success: true, messageId, fileName, uploadResponse}` — with
`messageId` the `id` field of a response the transport gave to a POST (the
message creation) — or `{success: false, error}` with exactly those two
fields; the two shapes are distinct objects. -/
theorem c5_record_shapes (env : Env) (items : List Item)
    (t : List Event) (out : List (List JValue))
    (h : execute env items = (t, .ok out)) :
    (∀ records ∈ out, ∀ r ∈ records,
      (∃ us fn ur,
        (∃ seqq req, req.method = "POST" ∧
          env.requestOAuth2 seqq req = .ok us) ∧
        r = successJson (us.getField "id") fn ur) ∨
      (∃ s, r = .jobj [("success", .jbool false), ("error", .jstr s)])) ∧
    (∀ mid fn ur s, successJson mid fn ur ≠
      .jobj [("success", .jbool false), ("error", .jstr s)]) := by
  constructor
  · intro records hrec r hr
    obtain ⟨records', hout, hloop⟩ := execute_ok_inv env items t out h
    obtain ⟨_, ho⟩ := executeLoop_ok env items 0 0 [] [] t records' hloop
    subst hout
    rw [List.mem_singleton] at hrec
    subst hrec
    rw [ho] at hr
    rw [List.nil_append, List.mem_map] at hr
    obtain ⟨x, hx, hxr⟩ := hr
    cases x with
    | ok rr =>
      left
      obtain ⟨idx, hidx⟩ := List.getElem?_of_mem hx
      obtain ⟨us, fn, ur, hprov, hshape⟩ :=
        itemResults_ok_inv env items 0 0 idx rr hidx
      refine ⟨us, fn, ur, hprov, ?_⟩
      rw [← hxr, hshape]
      rfl
    | error ee =>
      right
      exact ⟨strOr ee.message "An error occurred while uploading the file",
        by rw [← hxr]; rfl⟩
  · intro mid fn ur s hcontra
    simp [successJson] at hcontra

/-- Witness for C5: the records of a completed two-item run (one success,
one failure). -/
theorem c5_record_shapes_witness :
    (∀ records ∈
        [[successJson (.jstr "msg-1") "report.pdf" (.jstr "uploaded"),
          failJson (.err noBinaryDataMessage none)]],
      ∀ r ∈ records,
        (∃ us fn ur,
          (∃ seqq req, req.method = "POST" ∧
            envOkW.requestOAuth2 seqq req = .ok us) ∧
          r = successJson (us.getField "id") fn ur) ∨
        (∃ s, r = .jobj [("success", .jbool false), ("error", .jstr s)])) ∧
    (∀ mid fn ur s, successJson mid fn ur ≠
      .jobj [("success", .jbool false), ("error", .jstr s)]) :=
  c5_record_shapes envOkW [itemOkW, itemNoBinW]
    (execute envOkW [itemOkW, itemNoBinW]).1
    [[successJson (.jstr "msg-1") "report.pdf" (.jstr "uploaded"),
      failJson (.err noBinaryDataMessage none)]] rfl

/-- C8: in a completed run the trace is exactly the concatenation, in
input order, of one event block per item; each block is the item's three
parameter reads followed only by its HTTP requests — so every event of
item `i` precedes every event of item `i + 1`. -/
theorem c8_sequential_item_blocks (env : Env) (items : List Item)
    (t : List Event) (out : List (List JValue))
    (h : execute env items = (t, .ok out)) :
    t = (itemBlocks env items 0 0).flatten ∧
    (itemBlocks env items 0 0).length = items.length ∧
    ∀ k, k < items.length →
      ∃ https, (itemBlocks env items 0 0)[k]? =
          some ([.paramRead "chatId" k, .paramRead "binaryPropertyName" k,
                 .paramRead "message" k] ++ https) ∧
        ∀ ev ∈ https, ∃ req, ev = Event.httpRequest req := by
  obtain ⟨records, hout, hloop⟩ := execute_ok_inv env items t out h
  obtain ⟨ht, _⟩ := executeLoop_ok env items 0 0 [] [] t records hloop
  have hps := executeLoop_ok_params env items 0 0 [] [] t records hloop
  refine ⟨by simpa using ht,
    itemBlocks_length_of_params env items 0 0 hps, ?_⟩
  intro k hk
  have hstruct := itemBlocks_struct env items 0 0 k hk hps
  simpa using hstruct

/-- Witness for C8: a completed one-item run. -/
theorem c8_sequential_item_blocks_witness :
    (execute envOkW [itemOkW]).1 = (itemBlocks envOkW [itemOkW] 0 0).flatten ∧
    (itemBlocks envOkW [itemOkW] 0 0).length = ([itemOkW] : List Item).length ∧
    ∀ k, k < ([itemOkW] : List Item).length →
      ∃ https, (itemBlocks envOkW [itemOkW] 0 0)[k]? =
          some ([.paramRead "chatId" k, .paramRead "binaryPropertyName" k,
                 .paramRead "message" k] ++ https) ∧
        ∀ ev ∈ https, ∃ req, ev = Event.httpRequest req :=
  c8_sequential_item_blocks envOkW [itemOkW] (execute envOkW [itemOkW]).1
    [[successJson (.jstr "msg-1") "report.pdf" (.jstr "uploaded")]] rfl

/-- C1: with continue-on-failure enabled (and all parameter reads
succeeding), if exactly one of the N items fails — at any step of its try
block — and the others succeed, `execute` returns exactly N records: the
failing item's record is `{success: false, error}` with an error string,
and every other record is a success record. -/
theorem c1_single_failure_continue (env : Env) (items : List Item)
    (k : Nat) (e : JsError)
    (hcf : env.continueOnFail = true)
    (hp : ∀ j, j < items.length → (paramsOf env j).isOk = true)
    (hfail : (itemResults env items 0 0)[k]? = some (.error e))
    (hothers : ∀ j, j < items.length → j ≠ k →
      ∃ r, (itemResults env items 0 0)[j]? = some (.ok r)) :
    ∃ records : List JValue,
      (execute env items).2 = .ok [records] ∧
      records.length = items.length ∧
      (∃ s, records[k]? =
        some (.jobj [("success", .jbool false), ("error", .jstr s)])) ∧
      ∀ j, j < items.length → j ≠ k →
        ∃ mid fn ur, records[j]? = some (successJson mid fn ur) := by
  have hp0 : ∀ j, j < items.length → (paramsOf env (0 + j)).isOk = true := by
    simpa using hp
  have hloop := executeLoop_continue env hcf items 0 0 [] [] hp0
  refine ⟨(itemResults env items 0 0).map toRecord, ?_, ?_, ?_, ?_⟩
  · unfold execute
    rw [hloop]
    simp
  · simp [itemResults_length]
  · refine ⟨strOr e.message "An error occurred while uploading the file", ?_⟩
    rw [List.getElem?_map, hfail]
    rfl
  · intro j hj hne
    obtain ⟨r, hr⟩ := hothers j hj hne
    obtain ⟨us, fn, ur, _, hshape⟩ :=
      itemResults_ok_inv env items 0 0 j r hr
    refine ⟨us.getField "id", fn, ur, ?_⟩
    rw [List.getElem?_map, hr, hshape]
    rfl

/-- Witness for C1: three items, the middle one failing for lack of binary
data, with continue-on-fail enabled. -/
theorem c1_single_failure_continue_witness :
    ∃ records : List JValue,
      (execute envOkW [itemOkW, itemNoBinW, itemOkW]).2 = .ok [records] ∧
      records.length = ([itemOkW, itemNoBinW, itemOkW] : List Item).length ∧
      (∃ s, records[1]? =
        some (.jobj [("success", .jbool false), ("error", .jstr s)])) ∧
      ∀ j, j < ([itemOkW, itemNoBinW, itemOkW] : List Item).length → j ≠ 1 →
        ∃ mid fn ur, records[j]? = some (successJson mid fn ur) :=
  c1_single_failure_continue envOkW [itemOkW, itemNoBinW, itemOkW] 1
    (.err noBinaryDataMessage none) rfl (fun _ _ => rfl) rfl
    (fun j hj hne => by
      have hj3 : j < 3 := by simpa using hj
      interval_cases j
      · exact ⟨successJson (.jstr "msg-1") "report.pdf" (.jstr "uploaded"),
          rfl⟩
      · exact absurd rfl hne
      · exact ⟨successJson (.jstr "msg-1") "report.pdf" (.jstr "uploaded"),
          rfl⟩)

/-- C3: with continue-on-failure disabled, the first item whose try block
fails makes `execute` rethrow the error wrapped in a `NodeApiError`, and
the whole run (trace and result) coincides with the run on the input
truncated just after that item — no parameter read, HTTP request, or
output record for any later item. -/
theorem c3_first_failure_aborts (env : Env) (items : List Item) (k : Nat)
    (e : JsError)
    (hcf : env.continueOnFail = false)
    (hprev : ∀ j, j < k →
      ∃ r, (itemResults env items 0 0)[j]? = some (.ok r))
    (hpk : (paramsOf env k).isOk = true)
    (hfail : (itemResults env items 0 0)[k]? = some (.error e)) :
    execute env items = execute env (items.take (k + 1)) ∧
    (execute env items).2 = .error (.nodeApiError e []) := by
  obtain ⟨hEq, hErr⟩ := executeLoop_fail_abort env hcf items k 0 0 [] [] e
    hprev (by simpa using hpk) hfail
  constructor
  · unfold execute
    rw [hEq]
  · unfold execute
    rcases hl : executeLoop env items 0 0 [] [] with ⟨t, res⟩
    rw [hl] at hErr
    dsimp only at hErr
    subst hErr
    rfl

/-- Witness for C3: three items with continue-on-fail disabled; the second
has no binary data, so the run aborts there and equals the run on the
first two items only. -/
theorem c3_first_failure_aborts_witness :
    execute envAbortW [itemOkW, itemNoBinW, itemOkW] =
      execute envAbortW ([itemOkW, itemNoBinW, itemOkW].take 2) ∧
    (execute envAbortW [itemOkW, itemNoBinW, itemOkW]).2 =
      .error (.nodeApiError (.err noBinaryDataMessage none) []) :=
  c3_first_failure_aborts envAbortW [itemOkW, itemNoBinW, itemOkW] 1
    (.err noBinaryDataMessage none) rfl
    (fun j hj => by
      interval_cases j
      exact ⟨successJson (.jstr "msg-1") "report.pdf" (.jstr "uploaded"),
        rfl⟩)
    rfl rfl

/-- C9: the per-item parameter reads happen outside the try/catch: if a
parameter read for item k throws, `execute` propagates that very error —
unwrapped — even with continue-on-failure enabled, emits no record for the
item, and the run coincides with the run on the input truncated just after
item k, so no later item is processed. -/
theorem c9_param_error_escapes_continue (env : Env) (items : List Item)
    (k : Nat) (e : JsError)
    (hcf : env.continueOnFail = true)
    (hk : k < items.length)
    (hprev : ∀ j, j < k → (paramsOf env j).isOk = true)
    (hpk : paramsOf env k = .error e) :
    execute env items = execute env (items.take (k + 1)) ∧
    (execute env items).2 = .error e := by
  obtain ⟨hEq, hErr⟩ := executeLoop_param_abort env hcf items k 0 0 [] [] e
    hk (by simpa using hprev) (by simpa using hpk)
  constructor
  · unfold execute
    rw [hEq]
  · unfold execute
    rcases hl : executeLoop env items 0 0 [] [] with ⟨t, res⟩
    rw [hl] at hErr
    dsimp only at hErr
    subst hErr
    rfl

/-- Witness for C9: the parameter accessor throws for item 1 while
continue-on-fail is enabled; the error escapes unwrapped and item 2 is
never reached. -/
theorem c9_param_error_escapes_continue_witness :
    execute envParamFailW [itemOkW, itemOkW, itemOkW] =
      execute envParamFailW ([itemOkW, itemOkW, itemOkW].take 2) ∧
    (execute envParamFailW [itemOkW, itemOkW, itemOkW]).2 =
      .error paramFailW :=
  c9_param_error_escapes_continue envParamFailW [itemOkW, itemOkW, itemOkW]
    1 paramFailW rfl (by simp)
    (fun j hj => by interval_cases j; rfl) rfl
